import Mathlib

/-!
Verification development for the trainpixels track/utility animation engine
(src/src/main.py, src/src/debug.py, src/src/helpfunctions.py,
src/src/localtypes.py).

The Python source is shallowly embedded: pure computations become Lean
functions, LED-surface mutation becomes either explicit state passing
(DummyPixels, Surfaces) or an explicit event trace (Ev), and process exits
become structured return values (exit codes, Except).  Numbers that are
Python floats in the source (brightness, durations) are modelled as
rationals.
-/

/-- Pixel value: an (r, g, b) triple, as stored in a NeoPixel / DummyPixels
array after the int() scaling in the source. -/
abbrev Pix := Int × Int × Int

/-- Python int() applied to a rational: truncation toward zero, as in
int(r * brightness) in set_t_led / set_u_led / the boot animation. -/
def pyInt (q : ℚ) : Int := Int.tdiv q.num (q.den : Int)

/-- Embedding of class DummyPixels from src/src/debug.py: the fallback
in-memory surface.  num_pixels and brightness are the constructor
arguments; leds is the pixel array. -/
structure DummyPixels where
  num_pixels : Nat
  brightness : ℚ
  leds : List Pix
  deriving Repr, DecidableEq

/-- DummyPixels construction: leds = [(0, 0, 0)] * num_pixels. -/
def DummyPixels.make (pixCount : Nat) (brightness : ℚ) : DummyPixels :=
  { num_pixels := pixCount, brightness := brightness,
    leds := List.replicate pixCount (0, 0, 0) }

/-- Embedding of DummyPixels.setItem (the Python setitem hook): the write
happens only when 0 <= idx < num_pixels, otherwise it is silently
ignored.  The index is an Int because Python callers may pass negative
indices. -/
def DummyPixels.setItem (p : DummyPixels) (idx : Int) (v : Pix) : DummyPixels :=
  if 0 ≤ idx ∧ idx < (p.num_pixels : Int) then
    { p with leds := p.leds.set idx.toNat v }
  else p

/-- Embedding of DummyPixels.fill: self.leds = [value] * self.num_pixels. -/
def DummyPixels.fill (p : DummyPixels) (v : Pix) : DummyPixels :=
  { p with leds := List.replicate p.num_pixels v }

/-- Color-table entry: (r, g, b, brightness scale), the 4-tuples stored in
COLOR_TABLE in config. -/
abbrev ColorEntry := Int × Int × Int × ℚ

/-- COLOR_TABLE: a string-keyed dictionary, modelled as an association list
with the first binding of a key winning (Python dicts have unique keys, so
the model is used with Nodup keys). -/
abbrev ColorTable := List (String × ColorEntry)

/-- Dictionary lookup, COLOR_TABLE.get(name): first entry with the key. -/
def ColorTable.lookup (t : ColorTable) (name : String) : Option ColorEntry :=
  (t.find? (fun p => p.1 = name)).map (fun p => p.2)

/-- Embedding of get_color (src/src/main.py): COLOR_TABLE.get(name,
(0, 0, 0, 0)) — unknown names resolve to the off default. -/
def get_color (t : ColorTable) (name : String) : ColorEntry :=
  (t.lookup name).getD (0, 0, 0, 0)

/-- One element of a utility record's utils list (the per-action dict):
the source reads keys led and color with dict.get (None default) and, per
the TODO comment in run_util_by_id, currently ignores blink, duration and
repeat. -/
structure UtilAction where
  led : Option Int
  color : Option String
  blink : Option Bool
  duration : Option ℚ
  rep : Option Nat
  deriving Repr, DecidableEq

/-- Embedding of UtilsType (src/src/localtypes.py): a utility record.
id and name may be absent from the JSON document (dict.get returns None);
the two boolean flags are read with util.get(key, False), so a missing
flag behaves as false and is modelled directly as Bool. -/
structure UtilsType where
  id : Option String
  name : Option String
  enabled_on_init : Bool
  is_random : Bool
  utils : List UtilAction
  deriving Repr, DecidableEq

/-- Classification labels for the three utility partitions built by
util_build_init, plus the unreachable unknown fallthrough branch. -/
inductive UtilClass where
  | init
  | trigger
  | random
  | unknown
  deriving Repr, DecidableEq

/-- Embedding of the branch cascade in util_build_init (src/src/main.py):
enabled_on_init wins, then is_random and not enabled_on_init, then
neither flag, else the unknown fallthrough. -/
def classify_util (u : UtilsType) : UtilClass :=
  if u.enabled_on_init then .init
  else if u.is_random && !u.enabled_on_init then .random
  else if !u.is_random && !u.enabled_on_init then .trigger
  else .unknown

/-- Embedding of the separation loop of util_build_init: one pass over the
loaded utilities appending each to the partition selected by its flags; a
record matching no branch is excluded from all three partitions. -/
def util_separate : List UtilsType → List UtilsType × List UtilsType × List UtilsType
  | [] => ([], [], [])
  | u :: rest =>
    let p := util_separate rest
    if u.enabled_on_init then (u :: p.1, p.2.1, p.2.2)
    else if u.is_random && !u.enabled_on_init then (p.1, p.2.1, u :: p.2.2)
    else if !u.is_random && !u.enabled_on_init then (p.1, u :: p.2.1, p.2.2)
    else p

/-- Reference to utilities bound to a track step: the second element of a
step list in track_path is either a single id string or a list of ids. -/
inductive UtilRef where
  | one (id : String)
  | many (ids : List String)
  deriving Repr, DecidableEq

/-- One element of track_path: a bare LED index, or a nonempty list whose
head is the index and whose optional second element names bound
utilities.  The pause sentinel is index -1. -/
inductive Step where
  | bare (n : Int)
  | cell (n : Int) (utils : Option UtilRef)
  deriving Repr, DecidableEq

/-- Embedding of TrackType (src/src/localtypes.py): a track record.  id
and name may be absent from the JSON document. -/
structure TrackType where
  id : Option String
  name : Option String
  track_path : List Step
  speed : ℚ
  deriving Repr, DecidableEq

/-- Embedding of the duplicate-reporting loop in boot_startup_sequence:
walk the id list keeping a seen set and a duplicate set; an id met again
is added to the duplicate set.  Sets are modelled as Nodup lists in
insertion order. -/
def dup_scan_go {α : Type} [DecidableEq α] : List α → List α → List α → List α × List α
  | seen, dups, [] => (seen, dups)
  | seen, dups, x :: rest =>
    if x ∈ seen then
      dup_scan_go seen (if x ∈ dups then dups else dups ++ [x]) rest
    else
      dup_scan_go (seen ++ [x]) dups rest

/-- The duplicate ids of a list, as reported by boot_startup_sequence. -/
def dup_scan {α : Type} [DecidableEq α] (l : List α) : List α × List α :=
  dup_scan_go [] [] l

/-- The id projection of the loaded tracks: track.get(id) for each, None
included when the key is absent. -/
def track_ids (ts : List TrackType) : List (Option String) :=
  ts.map (fun t => t.id)

/-- The id projection of the combined utility partitions: ids of
INIT_UTILS + TRIGGER_UTILS + RANDOM_UTILS, records without an id key
skipped (the source filters on id in util). -/
def util_ids (ini trig rnd : List UtilsType) : List String :=
  (ini ++ trig ++ rnd).filterMap (fun u => u.id)

/-- Embedding of track_build_init (src/src/main.py) as a worker: the input
is the parsed documents of tracks.d (error = an uncaught exception while
listing or parsing, which kills the Python worker with a nonzero code);
the result is the worker exit code and the queued payload.  An empty
collection exits 1. -/
def track_build_init (input : Except String (List TrackType)) : Nat × List TrackType :=
  match input with
  | .error _ => (1, [])
  | .ok ts => if ts.length = 0 then (1, []) else (0, ts)

/-- Embedding of util_build_init (src/src/main.py) as a worker: the whole
body is wrapped in try/except, and both the exception path and the empty
path queue three empty partitions and return normally, so the worker exit
code is always 0. -/
def util_build_init (input : Except String (List UtilsType)) :
    Nat × (List UtilsType × List UtilsType × List UtilsType) :=
  match input with
  | .error _ => (0, ([], [], []))
  | .ok all =>
    if all.length = 0 then (0, ([], [], []))
    else (0, util_separate all)

/-- The distinct sys.exit(1) sites of boot_startup_sequence, with the
duplicate ids the two validation sites report. -/
inductive BootErr where
  | trackProcFailed
  | utilProcFailed
  | duplicateTrackIds (dups : List (Option String))
  | duplicateUtilIds (dups : List String)
  deriving Repr, DecidableEq

/-- Exit status of every fatal boot path: each BootErr site calls
sys.exit(1). -/
def BootErr.exitCode : BootErr → Nat := fun _ => 1

/-- Embedding of boot_startup_sequence (src/src/main.py): run the two load
workers, treat a nonzero worker exit as fatal, then validate that the
track ids and the combined utility ids are duplicate-free (the source
compares len(ids) with len(set(ids))); on success hand the loaded
collections to the rest of startup. -/
def boot_startup_sequence (tIn : Except String (List TrackType))
    (uIn : Except String (List UtilsType)) :
    Except BootErr (List TrackType × List UtilsType × List UtilsType × List UtilsType) :=
  let tRes := track_build_init tIn
  let uRes := util_build_init uIn
  if tRes.1 ≠ 0 then .error .trackProcFailed
  else if uRes.1 ≠ 0 then .error .utilProcFailed
  else
    let tids := track_ids tRes.2
    if tids.length ≠ tids.dedup.length then
      .error (.duplicateTrackIds (dup_scan tids).2)
    else
      let uids := util_ids uRes.2.1 uRes.2.2.1 uRes.2.2.2
      if uids.length ≠ uids.dedup.length then
        .error (.duplicateUtilIds (dup_scan uids).2)
      else .ok (tRes.2, uRes.2.1, uRes.2.2.1, uRes.2.2.2)

/-- Observable LED-surface events of a run.  setT and setU record a
single-pixel assignment made through set_t_led / set_u_led (index and the
symbolic color name passed in; the stored pixel is the scaled get_color
value).  setTRaw records the direct pixel assignments of the boot
animation.  fillT / fillU record surface fills, showT / showU flushes,
waitFor the sleeps. -/
inductive Ev where
  | setT (idx : Int) (color : String)
  | showT
  | setU (idx : Int) (color : String)
  | showU
  | setTRaw (idx : Int) (v : Pix)
  | fillT (v : Pix)
  | fillU (v : Pix)
  | waitFor (t : ℚ)
  deriving Repr, DecidableEq

/-- Embedding of set_t_led (src/src/main.py) as its event trace: one track
pixel assignment, plus a flush when show is requested.  On the fallback
surface no exception can occur, so the status is always 0. -/
def set_t_led (idx : Int) (color : String) (showNow : Bool) : List Ev :=
  [Ev.setT idx color] ++ (if showNow then [Ev.showT] else [])

/-- Embedding of set_u_led (src/src/main.py) as its event trace: one
utility pixel assignment, plus a flush when show is requested. -/
def set_u_led (idx : Int) (color : String) (showNow : Bool) : List Ev :=
  [Ev.setU idx color] ++ (if showNow then [Ev.showU] else [])

/-- Embedding of get_util_from_id (src/src/main.py): linear search of
INIT_UTILS + TRIGGER_UTILS + RANDOM_UTILS for util.get(id) == id. -/
def get_util_from_id (ini trig rnd : List UtilsType) (id : String) : Option UtilsType :=
  (ini ++ trig ++ rnd).find? (fun u => u.id = some id)

/-- Embedding of the action loop of run_util_by_id: for each item, read
led and color; when both are present apply set_u_led with show=False and
mark led_changes_made, otherwise warn and continue.  The accumulator is
(led_changes_made, events so far). -/
def run_util_items : List UtilAction → Bool → List Ev → Bool × List Ev
  | [], flag, evs => (flag, evs)
  | it :: rest, flag, evs =>
    match it.led, it.color with
    | some l, some c => run_util_items rest true (evs ++ [Ev.setU l c])
    | _, _ => run_util_items rest flag evs

/-- Body of run_util_by_id once a utility record has been found: an empty
utils list returns 2 (warning only), otherwise all valid items are
written without flushing, one trailing flush runs if anything was
written, and the total_wait_time accumulator stays 0 (the source never
adds to it), so no wait is ever issued. -/
def run_util_found (util : UtilsType) : Nat × List Ev :=
  if util.utils = [] then (2, [])
  else
    let res := run_util_items util.utils false []
    let total_wait_time : ℚ := 0
    let evs := res.2 ++ (if res.1 then [Ev.showU] else [])
    (0, evs ++ (if 0 < total_wait_time then [Ev.waitFor total_wait_time] else []))

/-- Embedding of run_util_by_id (src/src/main.py): status code and event
trace.  A missing utility id returns 1 with no events (warning only). -/
def run_util_by_id (ini trig rnd : List UtilsType) (util_id : String) : Nat × List Ev :=
  match get_util_from_id ini trig rnd util_id with
  | none => (1, [])
  | some util => run_util_found util

/-- Variant of run_util_by_id taking the raw util.get(id) value, as called
by execute_init_utils (which passes init_event.get(id), possibly None). -/
def run_util_by_opt_id (ini trig rnd : List UtilsType) (oid : Option String) : Nat × List Ev :=
  match (ini ++ trig ++ rnd).find? (fun u => u.id = oid) with
  | none => (1, [])
  | some util => run_util_found util

/-- The position of a step, as computed in run_random_track: the head of a
list-shaped step, the value itself otherwise. -/
def step_pos : Step → Int
  | .bare n => n
  | .cell n _ => n

/-- The bound utilities of a step, as computed in run_random_track:
track_util is the second list element when present; a falsy value (None,
empty string, empty list) triggers nothing, a single id is wrapped in a
one-element list. -/
def step_utils : Step → List String
  | .bare _ => []
  | .cell _ none => []
  | .cell _ (some (.one id)) => if id = "" then [] else [id]
  | .cell _ (some (.many ids)) => if ids = [] then [] else ids

/-- Embedding of the per-step utility loop of run_random_track: run each
bound id through run_util_by_id, skipping falsy entries; statuses are
ignored, so a failed lookup never stops the loop. -/
def run_ids (ini trig rnd : List UtilsType) : List String → List Ev
  | [] => []
  | id :: rest =>
    (if id = "" then [] else (run_util_by_id ini trig rnd id).2)
      ++ run_ids ini trig rnd rest

/-- Embedding of the arming loop of run_random_track: every non-pause
position of the path is set to white without flushing. -/
def arm_track : List Step → List Ev
  | [] => []
  | st :: rest =>
    (if step_pos st ≠ -1 then set_t_led (step_pos st) "white" false else [])
      ++ arm_track rest

/-- The event trace of one travel step of run_random_track: non-pause
positions are set red and flushed, the bound utilities run, the pacing
wait of 10 * TRACK_SPEED_MODIFIER elapses, then a non-pause position is
set off and flushed. -/
def step_events (ini trig rnd : List UtilsType) (sm : ℚ) (st : Step) : List Ev :=
  (if step_pos st ≠ -1 then set_t_led (step_pos st) "red" true else [])
    ++ run_ids ini trig rnd (step_utils st)
    ++ [Ev.waitFor (10 * sm)]
    ++ (if step_pos st ≠ -1 then set_t_led (step_pos st) "off" true else [])

/-- Embedding of the travel loop of run_random_track: the steps execute in
path order. -/
def travel_track (ini trig rnd : List UtilsType) (sm : ℚ) : List Step → List Ev
  | [] => []
  | st :: rest => step_events ini trig rnd sm st ++ travel_track ini trig rnd sm rest

/-- Embedding of run_random_track (src/src/main.py) for a selected track
path: arm the path, flush once, then travel it. -/
def run_random_track (ini trig rnd : List UtilsType) (sm : ℚ)
    (path : List Step) : List Ev :=
  arm_track path ++ [Ev.showT] ++ travel_track ini trig rnd sm path

/-- Embedding of the wheel helper inside boot_startup_sequence: a position
in [0, 256) mapped to a hue-rotating rgb triple. -/
def wheel (pos : Nat) : Pix :=
  if pos < 85 then ((pos : Int) * 3, 255 - (pos : Int) * 3, 0)
  else if pos < 170 then (255 - ((pos : Int) - 85) * 3, 0, ((pos : Int) - 85) * 3)
  else (0, ((pos : Int) - 170) * 3, 255 - ((pos : Int) - 170) * 3)

/-- One pixel of a boot-animation frame: pixel_index is
(i * 256 // TRACK_PIXEL_LENGTH) + frame * 8 masked to 8 bits, run through
wheel, then each channel scaled by int(c * 0.2). -/
def anim_pixel (tLen frame i : Nat) : Pix :=
  let c := wheel ((i * 256 / tLen + frame * 8) % 256)
  (pyInt ((c.1 : ℚ) * (1 / 5)), pyInt ((c.2.1 : ℚ) * (1 / 5)),
    pyInt ((c.2.2 : ℚ) * (1 / 5)))

/-- The event trace of one boot-animation frame: every track pixel is
assigned, the surface is flushed, and wait(0.05) elapses. -/
def boot_anim_frame (tLen frame : Nat) : List Ev :=
  (List.range tLen).map (fun (i : Nat) => Ev.setTRaw (Int.ofNat i) (anim_pixel tLen frame i))
    ++ [Ev.showT, Ev.waitFor (1 / 20)]

/-- The frames start, start+1, ..., start+n-1 of the boot animation. -/
def boot_anim_frames (tLen start : Nat) : Nat → List Ev
  | 0 => []
  | n + 1 => boot_anim_frame tLen start ++ boot_anim_frames tLen (start + 1) n

/-- The track-surface event trace of a successful boot_startup_sequence:
k animation frames while the workers run, 20 settling frames, the silent
id validation, then the track surface is cleared, flushed, and wait(1)
elapses. -/
def boot_trace (tLen k : Nat) : List Ev :=
  boot_anim_frames tLen 0 k ++ boot_anim_frames tLen k 20
    ++ [Ev.fillT (0, 0, 0), Ev.showT, Ev.waitFor 1]

/-- The event trace of execute_init_utils over a remaining list of init
utilities: each runs synchronously through run_util_by_id in collection
order. -/
def init_utils_events (ini trig rnd : List UtilsType) : List UtilsType → List Ev
  | [] => []
  | u :: rest =>
    (run_util_by_opt_id ini trig rnd u.id).2 ++ init_utils_events ini trig rnd rest

/-- Embedding of execute_init_utils (src/src/main.py): run every init
utility, in order, against the full repository. -/
def execute_init_utils (ini trig rnd : List UtilsType) : List Ev :=
  init_utils_events ini trig rnd ini

/-- The writer roles of the system as named by the specification: the
Boot Orchestrator (boot_startup_sequence), the Track Player
(run_random_track), the Utility Runner (run_util_by_id and the init-util
pass), the top level of main, and the interrupt shutdown handler. -/
inductive Role where
  | bootOrch
  | trackPlayer
  | utilRunner
  | mainTop
  | shutdown
  deriving Repr, DecidableEq

/-- Annotate every event of a trace with the role whose code emits it. -/
def tagged (r : Role) (evs : List Ev) : List (Role × Ev) :=
  evs.map (fun e => (r, e))

/-- Role-annotated trace of one travel step of run_random_track: the
track-surface writes and the pacing wait run in the Track Player, the
bound utilities run through the Utility Runner. -/
def step_events_tagged (ini trig rnd : List UtilsType) (sm : ℚ) (st : Step) :
    List (Role × Ev) :=
  tagged .trackPlayer (if step_pos st ≠ -1 then set_t_led (step_pos st) "red" true else [])
    ++ tagged .utilRunner (run_ids ini trig rnd (step_utils st))
    ++ tagged .trackPlayer [Ev.waitFor (10 * sm)]
    ++ tagged .trackPlayer (if step_pos st ≠ -1 then set_t_led (step_pos st) "off" true else [])

/-- Role-annotated travel loop of run_random_track. -/
def travel_track_tagged (ini trig rnd : List UtilsType) (sm : ℚ) :
    List Step → List (Role × Ev)
  | [] => []
  | st :: rest =>
    step_events_tagged ini trig rnd sm st ++ travel_track_tagged ini trig rnd sm rest

/-- Role-annotated trace of run_random_track for a selected path. -/
def run_random_track_tagged (ini trig rnd : List UtilsType) (sm : ℚ)
    (path : List Step) : List (Role × Ev) :=
  tagged .trackPlayer (arm_track path ++ [Ev.showT])
    ++ travel_track_tagged ini trig rnd sm path

/-- Role-annotated trace of the scheduler loop over the finite prefix of
selected track paths observed in a run. -/
def scheduler_events (ini trig rnd : List UtilsType) (sm : ℚ) :
    List (List Step) → List (Role × Ev)
  | [] => []
  | path :: rest =>
    run_random_track_tagged ini trig rnd sm path
      ++ scheduler_events ini trig rnd sm rest

/-- Role-annotated trace of main (src/src/main.py): the top level writes
the yellow status indicator to the utility surface, boot runs (k frames of
animation, track length tLen), the init utilities execute, the top level
writes the green status indicator, then the scheduler loop runs the
selected tracks. -/
def main_trace (statusLed : Int) (tLen k : Nat) (ini trig rnd : List UtilsType)
    (sm : ℚ) (runs : List (List Step)) : List (Role × Ev) :=
  tagged .mainTop (set_u_led statusLed "status_indicator_yellow" true)
    ++ tagged .bootOrch (boot_trace tLen k)
    ++ tagged .utilRunner (execute_init_utils ini trig rnd)
    ++ tagged .mainTop (set_u_led statusLed "status_indicator_green" true)
    ++ scheduler_events ini trig rnd sm runs

/-- The pair of LED surfaces, the mutable state of the process. -/
structure Surfaces where
  t : DummyPixels
  u : DummyPixels
  deriving Repr, DecidableEq

/-- Embedding of exit_gracefully (src/src/main.py): fill both surfaces
with (0, 0, 0), flush each, then sys.exit(0). -/
def exit_gracefully (s : Surfaces) : Surfaces :=
  { t := s.t.fill (0, 0, 0), u := s.u.fill (0, 0, 0) }

/-- Embedding of wait (src/src/main.py) on the surface state: a
KeyboardInterrupt delivered during time.sleep runs exit_gracefully and
the process exits; otherwise the state is untouched.  The returned
Boolean records whether the process exited. -/
def wait (interrupted : Bool) (s : Surfaces) : Surfaces × Bool :=
  if interrupted then (exit_gracefully s, true) else (s, false)

/-- Predicate: a surface is entirely off. -/
def DummyPixels.allOff (p : DummyPixels) : Prop :=
  ∀ v ∈ p.leds, v = ((0 : Int), (0 : Int), (0 : Int))

/-- Event classifier: a write to the utility surface (pixel assignment or
fill; flushes are not writes). -/
def writesU : Ev → Bool
  | .setU _ _ => true
  | .fillU _ => true
  | _ => false

/-- Event classifier: a write to the track surface. -/
def writesT : Ev → Bool
  | .setT _ _ => true
  | .setTRaw _ _ => true
  | .fillT _ => true
  | _ => false

/-- Count the set_t_led writes of a given color in a trace. -/
def countSetT (c : String) (evs : List Ev) : Nat :=
  (evs.filter (fun e => match e with | .setT _ col => col = c | _ => false)).length

/-- Count the utility-surface pixel writes in a trace. -/
def countSetU (evs : List Ev) : Nat :=
  (evs.filter (fun e => match e with | .setU _ _ => true | _ => false)).length

/-- Count the utility-surface flushes in a trace. -/
def countShowU (evs : List Ev) : Nat :=
  (evs.filter (fun e => match e with | .showU => true | _ => false)).length

/-- Count the waits in a trace. -/
def countWaits (evs : List Ev) : Nat :=
  (evs.filter (fun e => match e with | .waitFor _ => true | _ => false)).length


/-- A sample track record used as concrete boot input. -/
def sampleTrack : TrackType :=
  { id := some "t1", name := some "Main",
    track_path := [.bare 0, .bare 1, .bare 2], speed := 1 }
/-- A utility whose single action requests blink=true, duration=0.1,
repeat=3 — the failing input for the blink claim. -/
def blinkUtil : UtilsType :=
  { id := some "bl", name := some "Blinker", enabled_on_init := false,
    is_random := false,
    utils := [{ led := some 0, color := some "red", blink := some true,
                duration := some (1 / 10), rep := some 3 }] }
/-- The path [0, 1, 2] with no bound utilities, the playback input named
by the claim. -/
def path012 : List Step := [.bare 0, .bare 1, .bare 2]

/-- A trigger utility with id a and one valid green action, used as a
concrete repository inhabitant. -/
def utilA : UtilsType :=
  { id := some "a", name := some "A", enabled_on_init := false,
    is_random := false,
    utils := [{ led := some 1, color := some "green", blink := none,
                duration := none, rep := none }] }

/-- The separation loop computes the same three partitions as filtering
the load order by the branch conditions of util_build_init. -/
theorem util_separate_eq_filter (us : List UtilsType) :
    util_separate us =
      (us.filter (fun u => u.enabled_on_init),
       us.filter (fun u => !u.enabled_on_init && !u.is_random),
       us.filter (fun u => !u.enabled_on_init && u.is_random)) := by
  induction us with
  | nil => rfl
  | cons v rest ih =>
    by_cases h1 : v.enabled_on_init <;> by_cases h2 : v.is_random <;>
      simp [util_separate, ih, h1, h2, List.filter_cons]

/-- C2: classification at load time places every Utility record in exactly
one of the three partitions built by util_build_init: enabled_on_init
records in init, is_random records without enabled_on_init in random,
records with neither flag in trigger; no record lands in two partitions,
and the classification function (the flag test) is a pure function of the
record, so it cannot change after loading. -/
theorem util_classification_exactly_one (us : List UtilsType) (u : UtilsType) :
    (u ∈ (util_separate us).1 ↔ u ∈ us ∧ u.enabled_on_init = true) ∧
    (u ∈ (util_separate us).2.2 ↔ u ∈ us ∧ u.is_random = true ∧ u.enabled_on_init = false) ∧
    (u ∈ (util_separate us).2.1 ↔ u ∈ us ∧ u.is_random = false ∧ u.enabled_on_init = false) ∧
    classify_util u ≠ UtilClass.unknown ∧
    (u ∈ us →
      (u ∈ (util_separate us).1 ∧ u ∉ (util_separate us).2.1 ∧ u ∉ (util_separate us).2.2) ∨
      (u ∈ (util_separate us).2.1 ∧ u ∉ (util_separate us).1 ∧ u ∉ (util_separate us).2.2) ∨
      (u ∈ (util_separate us).2.2 ∧ u ∉ (util_separate us).1 ∧ u ∉ (util_separate us).2.1)) := by
  rw [util_separate_eq_filter]
  refine ⟨?_, ?_, ?_, ?_, ?_⟩
  · simp [List.mem_filter]
  · simp [List.mem_filter, and_comm]
  · simp [List.mem_filter, and_comm]
  · by_cases h1 : u.enabled_on_init <;> by_cases h2 : u.is_random <;>
      simp [classify_util, h1, h2]
  · intro hu
    by_cases h1 : u.enabled_on_init <;> by_cases h2 : u.is_random <;>
      simp [List.mem_filter, hu, h1, h2]

/-- C2 witness: a concrete trigger-classified utility lands only in the
trigger partition. -/
theorem util_classification_exactly_one_witness :
    let u : UtilsType :=
      { id := some "a", name := some "A", enabled_on_init := false,
        is_random := false, utils := [] }
    (u ∈ (util_separate [u]).2.1 ∧ u ∉ (util_separate [u]).1 ∧ u ∉ (util_separate [u]).2.2) ∨
    (u ∈ (util_separate [u]).1 ∧ u ∉ (util_separate [u]).2.1 ∧ u ∉ (util_separate [u]).2.2) ∨
    (u ∈ (util_separate [u]).2.2 ∧ u ∉ (util_separate [u]).1 ∧ u ∉ (util_separate [u]).2.1) := by
  have h := (util_classification_exactly_one
    [{ id := some "a", name := some "A", enabled_on_init := false,
       is_random := false, utils := [] }]
    { id := some "a", name := some "A", enabled_on_init := false,
      is_random := false, utils := [] }).2.2.2.2 (by decide)
  rcases h with h | h | h
  · exact Or.inr (Or.inl h)
  · exact Or.inl h
  · exact Or.inr (Or.inr h)

/-- C8: color resolution is total — a name absent from the color table
resolves to the off default (0, 0, 0, 0) instead of raising, and a name
present resolves to its table entry. -/
theorem get_color_total (t : ColorTable) (name : String) :
    (t.lookup name = none → get_color t name = (0, 0, 0, 0)) ∧
    (∀ c, t.lookup name = some c → get_color t name = c) := by
  constructor
  · intro h; simp [get_color, h]
  · intro c h; simp [get_color, h]

/-- C8 witness: on a one-entry table, the unknown name blue resolves to
off and the known name red resolves to its entry. -/
theorem get_color_total_witness :
    get_color [("red", ((255 : Int), (0 : Int), (0 : Int), (1 : ℚ)))] "blue" = (0, 0, 0, 0) ∧
    get_color [("red", ((255 : Int), (0 : Int), (0 : Int), (1 : ℚ)))] "red" =
      ((255 : Int), (0 : Int), (0 : Int), (1 : ℚ)) := by
  refine ⟨(get_color_total _ "blue").1 ?_, (get_color_total _ "red").2 _ ?_⟩
  · rfl
  · rfl

/-- C10: on the fallback in-memory surface, a single-pixel write with an
index outside [0, num_pixels) is silently ignored (state unchanged), and
a write with an in-range index updates exactly that element. -/
theorem dummy_setItem_safe (p : DummyPixels) (idx : Int) (v : Pix)
    (hlen : p.leds.length = p.num_pixels) :
    (¬ (0 ≤ idx ∧ idx < (p.num_pixels : Int)) → p.setItem idx v = p) ∧
    ((0 ≤ idx ∧ idx < (p.num_pixels : Int)) →
      (p.setItem idx v).leds[idx.toNat]? = some v ∧
      (∀ j : Nat, j ≠ idx.toNat → (p.setItem idx v).leds[j]? = p.leds[j]?)) := by
  constructor
  · intro h
    simp [DummyPixels.setItem, h]
  · intro h
    have hidx : idx.toNat < p.leds.length := by
      rw [hlen]
      omega
    constructor
    · simp only [DummyPixels.setItem, if_pos h]
      exact List.getElem?_set_self hidx
    · intro j hj
      simp only [DummyPixels.setItem, if_pos h]
      exact List.getElem?_set_ne (Ne.symm hj)

/-- C10 witness: on a 2-pixel surface, the out-of-range write at index 5
is a no-op and the in-range write at index 1 updates only that pixel. -/
theorem dummy_setItem_safe_witness :
    ((DummyPixels.make 2 1).setItem 5 (9, 9, 9) = DummyPixels.make 2 1) ∧
    (((DummyPixels.make 2 1).setItem 1 (9, 9, 9)).leds[(1 : Int).toNat]? = some (9, 9, 9) ∧
      (∀ j : Nat, j ≠ (1 : Int).toNat →
        ((DummyPixels.make 2 1).setItem 1 (9, 9, 9)).leds[j]? =
          (DummyPixels.make 2 1).leds[j]?)) := by
  constructor
  · exact (dummy_setItem_safe (DummyPixels.make 2 1) 5 (9, 9, 9) (by decide)).1 (by decide)
  · exact (dummy_setItem_safe (DummyPixels.make 2 1) 1 (9, 9, 9) (by decide)).2 (by decide)

/-- C6: an operator interrupt delivered at any wait point forces both the
track surface and the utility surface to all-off (fill with zero, flush)
and the process then exits. -/
theorem interrupt_forces_all_off (s : Surfaces) :
    (wait true s).1.t.allOff ∧ (wait true s).1.u.allOff ∧ (wait true s).2 = true := by
  refine ⟨?_, ?_, rfl⟩ <;>
    · intro v hv
      simp only [wait, if_pos rfl, exit_gracefully, DummyPixels.fill] at hv
      exact List.eq_of_mem_replicate hv

/-- A list whose deduplication has full length is duplicate-free: this is
the comparison len(ids) == len(set(ids)) used by the boot validation. -/
theorem dedup_length_eq_iff_nodup {α : Type} [DecidableEq α] (l : List α) :
    l.dedup.length = l.length ↔ l.Nodup := by
  constructor
  · intro h
    have hs := List.dedup_sublist l
    rw [← hs.eq_of_length h]
    exact l.nodup_dedup
  · intro h
    rw [List.Nodup.dedup h]

/-- The duplicate accumulator of the reporting loop only grows. -/
theorem dup_scan_go_dups_subset {α : Type} [DecidableEq α] (l : List α) :
    ∀ seen dups : List α, dups ⊆ (dup_scan_go seen dups l).2 := by
  induction l with
  | nil => intro seen dups; simp [dup_scan_go]
  | cons x rest ih =>
    intro seen dups
    simp only [dup_scan_go]
    by_cases hx : x ∈ seen
    · rw [if_pos hx]
      by_cases hd : x ∈ dups
      · rw [if_pos hd]; exact ih _ _
      · rw [if_neg hd]
        exact (List.subset_append_left dups [x]).trans (ih _ _)
    · rw [if_neg hx]
      exact ih _ _

/-- If some element of the remaining input was already seen, the reporting
loop ends with a nonempty duplicate set. -/
theorem dup_scan_go_ne_nil_of_seen {α : Type} [DecidableEq α] (l : List α) :
    ∀ (seen dups : List α) (y : α), y ∈ seen → y ∈ l →
      (dup_scan_go seen dups l).2 ≠ [] := by
  induction l with
  | nil =>
    intro seen dups y _ hl
    cases hl
  | cons x rest ih =>
    intro seen dups y hs hl
    simp only [dup_scan_go]
    by_cases hx : x ∈ seen
    · rw [if_pos hx]
      have hxd : x ∈ (if x ∈ dups then dups else dups ++ [x]) := by
        split
        · assumption
        · simp
      intro hnil
      have hmem := dup_scan_go_dups_subset rest seen
        (if x ∈ dups then dups else dups ++ [x]) hxd
      rw [hnil] at hmem
      cases hmem
    · rw [if_neg hx]
      rcases List.mem_cons.mp hl with h | h
      · subst h
        exact absurd hs hx
      · exact ih (seen ++ [x]) dups y (List.mem_append_left _ hs) h

/-- On an input with a duplicate, the reporting loop ends with a nonempty
duplicate set. -/
theorem dup_scan_go_ne_nil_of_not_nodup {α : Type} [DecidableEq α] (l : List α) :
    ∀ seen dups : List α, ¬ l.Nodup → (dup_scan_go seen dups l).2 ≠ [] := by
  induction l with
  | nil =>
    intro seen dups h
    exact absurd List.nodup_nil h
  | cons x rest ih =>
    intro seen dups h
    rw [List.nodup_cons] at h
    push_neg at h
    simp only [dup_scan_go]
    by_cases hx : x ∈ seen
    · rw [if_pos hx]
      have hxd : x ∈ (if x ∈ dups then dups else dups ++ [x]) := by
        split
        · assumption
        · simp
      intro hnil
      have hmem := dup_scan_go_dups_subset rest seen
        (if x ∈ dups then dups else dups ++ [x]) hxd
      rw [hnil] at hmem
      cases hmem
    · rw [if_neg hx]
      by_cases hxr : x ∈ rest
      · exact dup_scan_go_ne_nil_of_seen rest (seen ++ [x]) dups x (by simp) hxr
      · exact ih _ _ (h hxr)

/-- The reported duplicate set is nonempty whenever the id list has a
repeated element. -/
theorem dup_scan_ne_nil_of_not_nodup {α : Type} [DecidableEq α] (l : List α)
    (h : ¬ l.Nodup) : (dup_scan l).2 ≠ [] :=
  dup_scan_go_ne_nil_of_not_nodup l [] [] h

/-- A load worker result for a nonempty track collection: exit 0 with the
collection queued. -/
theorem track_build_init_ok (ts : List TrackType) (h : ts ≠ []) :
    track_build_init (.ok ts) = (0, ts) := by
  simp [track_build_init, List.length_eq_zero, h]

/-- The utility worker queues exactly the util_build_init partitions on a
successful parse, with exit code 0 (the empty case queues three empty
lists, which is what util_separate returns on an empty input). -/
theorem util_build_init_ok (us : List UtilsType) :
    util_build_init (.ok us) = (0, util_separate us) := by
  by_cases h : us.length = 0
  · rw [List.length_eq_zero] at h
    subst h
    rfl
  · simp [util_build_init, h]

/-- C1: if the loaded track collection repeats an id, or the combined
init, trigger, random utility partitions repeat an id, boot validation
reports a nonempty duplicate set and exits; the startup result is never
the Ok handoff that lets the scheduler loop start. -/
theorem boot_duplicate_ids_fatal (ts : List TrackType) (us : List UtilsType)
    (hts : ts ≠ [])
    (hdup : ¬ (track_ids ts).Nodup ∨
      ¬ (util_ids (util_separate us).1 (util_separate us).2.1
          (util_separate us).2.2).Nodup) :
    ((∃ d, d ≠ [] ∧ boot_startup_sequence (.ok ts) (.ok us) =
        .error (.duplicateTrackIds d)) ∨
      (∃ d, d ≠ [] ∧ boot_startup_sequence (.ok ts) (.ok us) =
        .error (.duplicateUtilIds d))) ∧
    (∀ data, boot_startup_sequence (.ok ts) (.ok us) ≠ .ok data) := by
  have ht := track_build_init_ok ts hts
  have hu := util_build_init_ok us
  have hboot : boot_startup_sequence (.ok ts) (.ok us) =
      (if (track_ids ts).length ≠ (track_ids ts).dedup.length then
        Except.error (BootErr.duplicateTrackIds (dup_scan (track_ids ts)).2)
      else if (util_ids (util_separate us).1 (util_separate us).2.1
          (util_separate us).2.2).length ≠
          (util_ids (util_separate us).1 (util_separate us).2.1
            (util_separate us).2.2).dedup.length then
        Except.error (BootErr.duplicateUtilIds
          (dup_scan (util_ids (util_separate us).1 (util_separate us).2.1
            (util_separate us).2.2)).2)
      else Except.ok (ts, (util_separate us).1, (util_separate us).2.1,
        (util_separate us).2.2)) := by
    simp [boot_startup_sequence, ht, hu]
  by_cases htd : (track_ids ts).Nodup
  · have hud := hdup.resolve_left (not_not_intro htd)
    have heq : (track_ids ts).dedup.length = (track_ids ts).length :=
      (dedup_length_eq_iff_nodup _).mpr htd
    have hne : (util_ids (util_separate us).1 (util_separate us).2.1
        (util_separate us).2.2).length ≠
        (util_ids (util_separate us).1 (util_separate us).2.1
          (util_separate us).2.2).dedup.length := by
      intro hh
      exact hud ((dedup_length_eq_iff_nodup _).mp hh.symm)
    have hres : boot_startup_sequence (.ok ts) (.ok us) =
        Except.error (BootErr.duplicateUtilIds
          (dup_scan (util_ids (util_separate us).1 (util_separate us).2.1
            (util_separate us).2.2)).2) := by
      rw [hboot, if_neg (not_not_intro heq.symm), if_pos hne]
    refine ⟨Or.inr ⟨_, dup_scan_ne_nil_of_not_nodup _ hud, hres⟩, ?_⟩
    intro data hdata
    rw [hres] at hdata
    cases hdata
  · have hne : (track_ids ts).length ≠ (track_ids ts).dedup.length := by
      intro hh
      exact htd ((dedup_length_eq_iff_nodup _).mp hh.symm)
    have hres : boot_startup_sequence (.ok ts) (.ok us) =
        Except.error (BootErr.duplicateTrackIds (dup_scan (track_ids ts)).2) := by
      rw [hboot, if_pos hne]
    refine ⟨Or.inl ⟨_, dup_scan_ne_nil_of_not_nodup _ htd, hres⟩, ?_⟩
    intro data hdata
    rw [hres] at hdata
    cases hdata

/-- C1 witness: two tracks sharing the id t make boot fail with a reported
duplicate and never reach the Ok handoff. -/
theorem boot_duplicate_ids_fatal_witness :
    ((∃ d, d ≠ [] ∧ boot_startup_sequence
        (.ok [{ id := some "t", name := none, track_path := [], speed := 1 },
              { id := some "t", name := none, track_path := [], speed := 1 }])
        (.ok []) = .error (.duplicateTrackIds d)) ∨
      (∃ d, d ≠ [] ∧ boot_startup_sequence
        (.ok [{ id := some "t", name := none, track_path := [], speed := 1 },
              { id := some "t", name := none, track_path := [], speed := 1 }])
        (.ok []) = .error (.duplicateUtilIds d))) ∧
    (∀ data, boot_startup_sequence
        (.ok [{ id := some "t", name := none, track_path := [], speed := 1 },
              { id := some "t", name := none, track_path := [], speed := 1 }])
        (.ok []) ≠ .ok data) :=
  boot_duplicate_ids_fatal
    [{ id := some "t", name := none, track_path := [], speed := 1 },
     { id := some "t", name := none, track_path := [], speed := 1 }]
    [] (by decide) (Or.inl (by decide))


/-- C5 counterexample: an empty utility repository and an exception inside
the utility load worker both end the worker with exit code 0 (the source
catches the exception, queues three empty partitions and returns), and the
orchestrator then proceeds to the Ok handoff — startup continues into the
scheduler loop with no utility data, contradicting the claim that every
empty repository or worker failure terminates the process. -/
theorem util_worker_failure_not_fatal :
    (util_build_init (.ok [])).1 = 0 ∧
    (util_build_init (.error "oserror")).1 = 0 ∧
    boot_startup_sequence (.ok [sampleTrack]) (.ok []) =
      .ok ([sampleTrack], [], [], []) ∧
    boot_startup_sequence (.ok [sampleTrack]) (.error "oserror") =
      .ok ([sampleTrack], [], [], []) := by
  refine ⟨rfl, rfl, ?_, ?_⟩ <;> rfl

/-- C5 amended: the fatal-worker semantics holds for the track side only.
A nonzero track-worker exit makes the orchestrator exit (with status 1,
BootErr.exitCode); an empty track repository and an exception in the
track worker both exit the worker with code 1; but the utility worker
always exits 0 — an empty utility repository or an exception there queues
empty partitions and startup proceeds. -/
theorem boot_worker_failure_semantics (tIn : Except String (List TrackType))
    (uIn : Except String (List UtilsType)) :
    ((track_build_init tIn).1 ≠ 0 →
      boot_startup_sequence tIn uIn = .error BootErr.trackProcFailed) ∧
    (tIn = .ok [] → (track_build_init tIn).1 = 1) ∧
    (∀ msg, tIn = .error msg → (track_build_init tIn).1 = 1) ∧
    (util_build_init uIn).1 = 0 := by
  refine ⟨?_, ?_, ?_, ?_⟩
  · intro h
    simp [boot_startup_sequence, h]
  · intro h
    subst h
    rfl
  · intro msg h
    subst h
    rfl
  · cases uIn with
    | error m => rfl
    | ok us => rw [util_build_init_ok]

/-- C5 amended witness: a crashed track worker makes boot exit with the
track-failure error, while the utility worker exit code stays 0. -/
theorem boot_worker_failure_semantics_witness :
    boot_startup_sequence (Except.error "x") (Except.ok ([] : List UtilsType)) =
      .error BootErr.trackProcFailed ∧
    (track_build_init (Except.error "x")).1 = 1 ∧
    (util_build_init (Except.ok ([] : List UtilsType))).1 = 0 :=
  ⟨(boot_worker_failure_semantics (Except.error "x") (Except.ok [])).1 (by decide),
   (boot_worker_failure_semantics (Except.error "x") (Except.ok [])).2.2.1 "x" rfl,
   (boot_worker_failure_semantics (Except.error "x") (Except.ok [])).2.2.2⟩


/-- C3: evaluating the Utility Runner on the blink action shows the claim
does not hold of the code: the run issues exactly one surface write and
one trailing show, and performs no wait at all — the blink, duration and
repeat keys are never read (the source marks their handling TODO), so no
on/off cycling and no 2 x duration x repeat blocking happens. -/
theorem blink_action_ignored :
    (run_util_by_id [] [blinkUtil] [] "bl").2 = [Ev.setU 0 "red", Ev.showU] ∧
    countSetU (run_util_by_id [] [blinkUtil] [] "bl").2 = 1 ∧
    countShowU (run_util_by_id [] [blinkUtil] [] "bl").2 = 1 ∧
    countWaits (run_util_by_id [] [blinkUtil] [] "bl").2 = 0 ∧
    (run_util_by_id [] [blinkUtil] [] "bl").1 = 0 := by
  refine ⟨?_, ?_, ?_, ?_, ?_⟩ <;> decide


/-- C4 counterexample: a full playback pass over [0, 1, 2] issues three
off writes to the track surface, not two — the travel loop turns the
current position off after the pacing wait of every step, the last step
included. -/
theorem track_pass_off_writes_counterexample :
    countSetT "off" (run_random_track [] [] [] 1 path012) = 3 ∧
    ¬ countSetT "off" (run_random_track [] [] [] 1 path012) = 2 := by
  refine ⟨?_, ?_⟩ <;> decide

/-- C4 amended: a full playback pass over [0, 1, 2] with no bound
utilities issues exactly 3 position-active (red) writes and 3 position-off
writes, in this order: after arming the path white and flushing once, each
step sets the current position red and flushes, waits the pacing delay of
10 x speed_modifier, then sets the same (now previous) position off and
flushes. -/
theorem track_pass_trace (ini trig rnd : List UtilsType) (sm : ℚ) :
    run_random_track ini trig rnd sm path012 =
      [Ev.setT 0 "white", Ev.setT 1 "white", Ev.setT 2 "white", Ev.showT,
       Ev.setT 0 "red", Ev.showT, Ev.waitFor (10 * sm), Ev.setT 0 "off", Ev.showT,
       Ev.setT 1 "red", Ev.showT, Ev.waitFor (10 * sm), Ev.setT 1 "off", Ev.showT,
       Ev.setT 2 "red", Ev.showT, Ev.waitFor (10 * sm), Ev.setT 2 "off", Ev.showT] ∧
    countSetT "red" (run_random_track ini trig rnd sm path012) = 3 ∧
    countSetT "off" (run_random_track ini trig rnd sm path012) = 3 := by
  refine ⟨?_, ?_, ?_⟩ <;>
    simp [run_random_track, arm_track, travel_track, step_events, step_pos,
      step_utils, run_ids, set_t_led, countSetT, path012, List.filter]

/-- The per-step utility loop distributes over concatenation of the bound
id list. -/
theorem run_ids_append (ini trig rnd : List UtilsType) (l1 l2 : List String) :
    run_ids ini trig rnd (l1 ++ l2) =
      run_ids ini trig rnd l1 ++ run_ids ini trig rnd l2 := by
  induction l1 with
  | nil => rfl
  | cons x rest ih => simp [run_ids, ih]

/-- C7: a bound utility id that resolves to no record is a warning-only
no-op — run_util_by_id returns status 1 with no surface events — the
other ids bound to the step contribute their full traces unchanged, and
the travel loop proceeds to the following steps unconditionally. -/
theorem missing_util_id_nonfatal (ini trig rnd : List UtilsType)
    (badId : String) (hbad : get_util_from_id ini trig rnd badId = none)
    (hne : badId ≠ "") (ids1 ids2 : List String) :
    run_util_by_id ini trig rnd badId = (1, []) ∧
    run_ids ini trig rnd (ids1 ++ badId :: ids2) =
      run_ids ini trig rnd ids1 ++ run_ids ini trig rnd ids2 ∧
    (∀ (sm : ℚ) (st : Step) (rest : List Step),
      travel_track ini trig rnd sm (st :: rest) =
        step_events ini trig rnd sm st ++ travel_track ini trig rnd sm rest) := by
  have h1 : run_util_by_id ini trig rnd badId = (1, []) := by
    simp [run_util_by_id, hbad]
  refine ⟨h1, ?_, fun sm st rest => rfl⟩
  rw [run_ids_append]
  simp [run_ids, hne, h1]

/-- C7 witness: on a repository holding only the utility a, the step ids
a then b run a and skip b, and the player still appends the trace of any
following steps. -/
theorem missing_util_id_nonfatal_witness :
    run_util_by_id [utilA] [] [] "b" = (1, []) ∧
    run_ids [utilA] [] [] (["a"] ++ "b" :: []) =
      run_ids [utilA] [] [] ["a"] ++ run_ids [utilA] [] [] [] ∧
    (∀ (sm : ℚ) (st : Step) (rest : List Step),
      travel_track [utilA] [] [] sm (st :: rest) =
        step_events [utilA] [] [] sm st ++ travel_track [utilA] [] [] sm rest) :=
  missing_util_id_nonfatal [utilA] [] [] "b" (by decide) (by decide) ["a"] []

/-- Membership in a role-tagged trace fixes the role and projects to the
underlying event. -/
theorem tagged_cases {r : Role} {evs : List Ev} {pr : Role × Ev}
    (h : pr ∈ tagged r evs) : pr.1 = r ∧ pr.2 ∈ evs := by
  rcases List.mem_map.mp h with ⟨e, he, rfl⟩
  exact ⟨rfl, he⟩

/-- The events of set_t_led never write the utility surface. -/
theorem set_t_led_no_util_writes (idx : Int) (c : String) (s : Bool) :
    ∀ e ∈ set_t_led idx c s, writesU e = false := by
  intro e he
  simp only [set_t_led] at he
  rcases List.mem_append.mp he with h | h
  · rw [List.mem_singleton] at h
    subst h
    rfl
  · cases s with
    | false => simp at h
    | true =>
      simp at h
      subst h
      rfl

/-- The events of set_u_led never write the track surface. -/
theorem set_u_led_no_track_writes (idx : Int) (c : String) (s : Bool) :
    ∀ e ∈ set_u_led idx c s, writesT e = false := by
  intro e he
  simp only [set_u_led] at he
  rcases List.mem_append.mp he with h | h
  · rw [List.mem_singleton] at h
    subst h
    rfl
  · cases s with
    | false => simp at h
    | true =>
      simp at h
      subst h
      rfl

/-- The utility-runner item loop emits only utility-surface writes. -/
theorem run_util_items_no_track_writes (l : List UtilAction) :
    ∀ (flag : Bool) (evs : List Ev), (∀ e ∈ evs, writesT e = false) →
      ∀ e ∈ (run_util_items l flag evs).2, writesT e = false := by
  induction l with
  | nil =>
    intro flag evs h0
    simpa [run_util_items] using h0
  | cons it rest ih =>
    intro flag evs h0
    rcases hl : it.led with _ | l0
    · simp only [run_util_items, hl]
      exact ih _ _ h0
    · rcases hc : it.color with _ | c0
      · simp only [run_util_items, hl, hc]
        exact ih _ _ h0
      · simp only [run_util_items, hl, hc]
        refine ih _ _ ?_
        intro e he
        rcases List.mem_append.mp he with h | h
        · exact h0 e h
        · rw [List.mem_singleton] at h
          subst h
          rfl

/-- The found-utility body of the runner emits only utility-surface
writes. -/
theorem run_util_found_no_track_writes (util : UtilsType) :
    ∀ e ∈ (run_util_found util).2, writesT e = false := by
  intro e he
  by_cases hu : util.utils = []
  · simp [run_util_found, hu] at he
  · simp only [run_util_found, if_neg hu] at he
    rw [if_neg (lt_irrefl (0 : ℚ)), List.append_nil] at he
    rcases List.mem_append.mp he with h | h
    · exact run_util_items_no_track_writes util.utils false []
        (by intro e h; cases h) e h
    · by_cases hf : (run_util_items util.utils false []).1
      · rw [if_pos hf, List.mem_singleton] at h
        subst h
        rfl
      · rw [if_neg hf] at h
        cases h

/-- run_util_by_id emits only utility-surface writes. -/
theorem run_util_by_id_no_track_writes (ini trig rnd : List UtilsType) (id : String) :
    ∀ e ∈ (run_util_by_id ini trig rnd id).2, writesT e = false := by
  intro e he
  unfold run_util_by_id at he
  split at he
  · cases he
  · exact run_util_found_no_track_writes _ e he

/-- run_util_by_opt_id emits only utility-surface writes. -/
theorem run_util_by_opt_id_no_track_writes (ini trig rnd : List UtilsType)
    (oid : Option String) :
    ∀ e ∈ (run_util_by_opt_id ini trig rnd oid).2, writesT e = false := by
  intro e he
  unfold run_util_by_opt_id at he
  split at he
  · cases he
  · exact run_util_found_no_track_writes _ e he

/-- The per-step utility loop emits only utility-surface writes. -/
theorem run_ids_no_track_writes (ini trig rnd : List UtilsType) (ids : List String) :
    ∀ e ∈ run_ids ini trig rnd ids, writesT e = false := by
  induction ids with
  | nil =>
    intro e he
    cases he
  | cons id rest ih =>
    intro e he
    simp only [run_ids] at he
    rcases List.mem_append.mp he with h | h
    · by_cases hid : id = ""
      · rw [if_pos hid] at h
        cases h
      · rw [if_neg hid] at h
        exact run_util_by_id_no_track_writes ini trig rnd id e h
    · exact ih e h

/-- The init-utility pass emits only utility-surface writes. -/
theorem init_utils_events_no_track_writes (ini trig rnd : List UtilsType) :
    ∀ l, ∀ e ∈ init_utils_events ini trig rnd l, writesT e = false := by
  intro l
  induction l with
  | nil =>
    intro e he
    cases he
  | cons u rest ih =>
    intro e he
    simp only [init_utils_events] at he
    rcases List.mem_append.mp he with h | h
    · exact run_util_by_opt_id_no_track_writes ini trig rnd u.id e h
    · exact ih e h

/-- One boot-animation frame emits only track-surface writes. -/
theorem boot_anim_frame_no_util_writes (tLen frame : Nat) :
    ∀ e ∈ boot_anim_frame tLen frame, writesU e = false := by
  intro e he
  simp only [boot_anim_frame] at he
  rcases List.mem_append.mp he with h | h
  · rcases List.mem_map.mp h with ⟨i, _, rfl⟩
    rfl
  · simp at h
    rcases h with rfl | rfl <;> rfl

/-- Any run of boot-animation frames emits only track-surface writes. -/
theorem boot_anim_frames_no_util_writes (tLen : Nat) :
    ∀ n start, ∀ e ∈ boot_anim_frames tLen start n, writesU e = false := by
  intro n
  induction n with
  | zero =>
    intro start e he
    cases he
  | succ k ih =>
    intro start e he
    simp only [boot_anim_frames] at he
    rcases List.mem_append.mp he with h | h
    · exact boot_anim_frame_no_util_writes tLen start e h
    · exact ih (start + 1) e h

/-- The whole boot trace emits only track-surface writes. -/
theorem boot_trace_no_util_writes (tLen k : Nat) :
    ∀ e ∈ boot_trace tLen k, writesU e = false := by
  intro e he
  simp only [boot_trace] at he
  rcases List.mem_append.mp he with h | h
  · rcases List.mem_append.mp h with h2 | h2
    · exact boot_anim_frames_no_util_writes tLen k 0 e h2
    · exact boot_anim_frames_no_util_writes tLen 20 k e h2
  · simp at h
    rcases h with rfl | rfl | rfl <;> rfl

/-- The arming loop emits only track-surface writes. -/
theorem arm_track_no_util_writes (path : List Step) :
    ∀ e ∈ arm_track path, writesU e = false := by
  induction path with
  | nil =>
    intro e he
    cases he
  | cons st rest ih =>
    intro e he
    simp only [arm_track] at he
    rcases List.mem_append.mp he with h | h
    · by_cases hp : step_pos st ≠ -1
      · rw [if_pos hp] at h
        exact set_t_led_no_util_writes _ _ _ e h
      · rw [if_neg hp] at h
        cases h
    · exact ih e h

/-- In one tagged travel step, every utility-surface write is tagged with
the Utility Runner and every track-surface write with the Track Player. -/
theorem step_events_tagged_roles (ini trig rnd : List UtilsType) (sm : ℚ) (st : Step) :
    ∀ pr ∈ step_events_tagged ini trig rnd sm st,
      (writesU pr.2 = true → pr.1 = Role.utilRunner) ∧
      (writesT pr.2 = true → pr.1 = Role.trackPlayer) := by
  intro pr hpr
  simp only [step_events_tagged, List.mem_append] at hpr
  rcases hpr with ((h | h) | h) | h
  · obtain ⟨h1, h2⟩ := tagged_cases h
    refine ⟨fun hw => ?_, fun _ => h1⟩
    have hfalse : writesU pr.2 = false := by
      by_cases hp : step_pos st ≠ -1
      · rw [if_pos hp] at h2
        exact set_t_led_no_util_writes _ _ _ _ h2
      · rw [if_neg hp] at h2
        cases h2
    rw [hfalse] at hw
    cases hw
  · obtain ⟨h1, h2⟩ := tagged_cases h
    refine ⟨fun _ => h1, fun hw => ?_⟩
    have hfalse : writesT pr.2 = false := run_ids_no_track_writes ini trig rnd _ _ h2
    rw [hfalse] at hw
    cases hw
  · obtain ⟨h1, h2⟩ := tagged_cases h
    rw [List.mem_singleton] at h2
    refine ⟨fun hw => ?_, fun hw => ?_⟩ <;>
      · rw [h2] at hw
        cases hw
  · obtain ⟨h1, h2⟩ := tagged_cases h
    refine ⟨fun hw => ?_, fun _ => h1⟩
    have hfalse : writesU pr.2 = false := by
      by_cases hp : step_pos st ≠ -1
      · rw [if_pos hp] at h2
        exact set_t_led_no_util_writes _ _ _ _ h2
      · rw [if_neg hp] at h2
        cases h2
    rw [hfalse] at hw
    cases hw

/-- In the tagged travel loop, ownership of the two surfaces follows the
Utility Runner / Track Player split. -/
theorem travel_track_tagged_roles (ini trig rnd : List UtilsType) (sm : ℚ) :
    ∀ path, ∀ pr ∈ travel_track_tagged ini trig rnd sm path,
      (writesU pr.2 = true → pr.1 = Role.utilRunner) ∧
      (writesT pr.2 = true → pr.1 = Role.trackPlayer) := by
  intro path
  induction path with
  | nil =>
    intro pr hpr
    cases hpr
  | cons st rest ih =>
    intro pr hpr
    simp only [travel_track_tagged, List.mem_append] at hpr
    rcases hpr with h | h
    · exact step_events_tagged_roles ini trig rnd sm st pr h
    · exact ih pr h

/-- In one tagged track run, ownership of the two surfaces follows the
Utility Runner / Track Player split. -/
theorem run_random_track_tagged_roles (ini trig rnd : List UtilsType) (sm : ℚ)
    (path : List Step) :
    ∀ pr ∈ run_random_track_tagged ini trig rnd sm path,
      (writesU pr.2 = true → pr.1 = Role.utilRunner) ∧
      (writesT pr.2 = true → pr.1 = Role.trackPlayer) := by
  intro pr hpr
  simp only [run_random_track_tagged, List.mem_append] at hpr
  rcases hpr with h | h
  · obtain ⟨h1, h2⟩ := tagged_cases h
    refine ⟨fun hw => ?_, fun _ => h1⟩
    have hfalse : writesU pr.2 = false := by
      rcases List.mem_append.mp h2 with ha | ha
      · exact arm_track_no_util_writes path pr.2 ha
      · rw [List.mem_singleton] at ha
        rw [ha]
        rfl
    rw [hfalse] at hw
    cases hw
  · exact travel_track_tagged_roles ini trig rnd sm path pr h

/-- In the tagged scheduler loop, ownership of the two surfaces follows
the Utility Runner / Track Player split. -/
theorem scheduler_events_roles (ini trig rnd : List UtilsType) (sm : ℚ) :
    ∀ runs, ∀ pr ∈ scheduler_events ini trig rnd sm runs,
      (writesU pr.2 = true → pr.1 = Role.utilRunner) ∧
      (writesT pr.2 = true → pr.1 = Role.trackPlayer) := by
  intro runs
  induction runs with
  | nil =>
    intro pr hpr
    cases hpr
  | cons path rest ih =>
    intro pr hpr
    simp only [scheduler_events, List.mem_append] at hpr
    rcases hpr with h | h
    · exact run_random_track_tagged_roles ini trig rnd sm path pr h
    · exact ih pr h

/-- C9 counterexample: in the main trace, the very first utility-surface
write — the yellow status indicator — is issued by the top level of main,
not by the Utility Runner, so the utility surface is written by a
component other than its claimed exclusive owner. -/
theorem util_surface_written_by_main :
    (Role.mainTop, Ev.setU 0 "status_indicator_yellow") ∈
      main_trace 0 0 0 [] [] [] 1 [] ∧
    writesU (Ev.setU 0 "status_indicator_yellow") = true ∧
    Role.mainTop ≠ Role.utilRunner := by
  refine ⟨?_, rfl, by decide⟩
  simp [main_trace, tagged, set_u_led]

/-- C9 amended: in every execution trace of main, utility-surface writes
are issued only by the Utility Runner or by the status-indicator updates
at the top level of main, and track-surface writes only by the Boot
Orchestrator or the Track Player. -/
theorem surface_ownership_roles (statusLed : Int) (tLen k : Nat)
    (ini trig rnd : List UtilsType) (sm : ℚ) (runs : List (List Step)) :
    ∀ pr ∈ main_trace statusLed tLen k ini trig rnd sm runs,
      (writesU pr.2 = true → pr.1 = Role.utilRunner ∨ pr.1 = Role.mainTop) ∧
      (writesT pr.2 = true → pr.1 = Role.bootOrch ∨ pr.1 = Role.trackPlayer) := by
  intro pr hpr
  simp only [main_trace, List.mem_append] at hpr
  rcases hpr with (((h | h) | h) | h) | h
  · obtain ⟨h1, h2⟩ := tagged_cases h
    refine ⟨fun _ => Or.inr h1, fun hw => ?_⟩
    have hfalse : writesT pr.2 = false := set_u_led_no_track_writes _ _ _ _ h2
    rw [hfalse] at hw
    cases hw
  · obtain ⟨h1, h2⟩ := tagged_cases h
    refine ⟨fun hw => ?_, fun _ => Or.inl h1⟩
    have hfalse : writesU pr.2 = false := boot_trace_no_util_writes tLen k _ h2
    rw [hfalse] at hw
    cases hw
  · obtain ⟨h1, h2⟩ := tagged_cases h
    refine ⟨fun _ => Or.inl h1, fun hw => ?_⟩
    have hfalse : writesT pr.2 = false :=
      init_utils_events_no_track_writes ini trig rnd ini _ h2
    rw [hfalse] at hw
    cases hw
  · obtain ⟨h1, h2⟩ := tagged_cases h
    refine ⟨fun _ => Or.inr h1, fun hw => ?_⟩
    have hfalse : writesT pr.2 = false := set_u_led_no_track_writes _ _ _ _ h2
    rw [hfalse] at hw
    cases hw
  · have hr := scheduler_events_roles ini trig rnd sm runs pr h
    exact ⟨fun hw => Or.inl (hr.1 hw), fun hw => Or.inr (hr.2 hw)⟩

/-- C9 amended witness: the concrete yellow status-indicator write in a
minimal main trace satisfies the amended ownership property (it is a
utility-surface write issued at the top level of main). -/
theorem surface_ownership_roles_witness :
    (Role.mainTop, Ev.setU 0 "status_indicator_yellow") ∈
      main_trace 0 0 0 [] [] [] 1 [] ∧
    ((writesU (Ev.setU 0 "status_indicator_yellow") = true →
        Role.mainTop = Role.utilRunner ∨ Role.mainTop = Role.mainTop) ∧
      (writesT (Ev.setU 0 "status_indicator_yellow") = true →
        Role.mainTop = Role.bootOrch ∨ Role.mainTop = Role.trackPlayer)) := by
  have hmem : (Role.mainTop, Ev.setU 0 "status_indicator_yellow") ∈
      main_trace 0 0 0 [] [] [] 1 [] := by
    simp [main_trace, tagged, set_u_led]
  exact ⟨hmem, surface_ownership_roles 0 0 0 [] [] [] 1 []
    (Role.mainTop, Ev.setU 0 "status_indicator_yellow") hmem⟩
